import Mathlib

/-!
noisytransport: the transport orchestrator.

A shallow embedding of `transport/transport.go` and of the default queue
constants (`transport/queueconstants_default.go`).

Conventions of the embedding.

* The mutexes are not represented: every method is one atomic step on a
  `Transport` value, which is what the locks of the source provide for the
  lifecycle methods (`state.Mutex`), the peer table (`peers.RWMutex`) and the
  static identity.
* The collaborators (`conn.Bind`, `SourceSink`, `ratelimiter.Ratelimiter`) are
  arbitrary state machines: a method takes the collaborator's state and returns
  its result together with the next state.
* Every call that leaves this file (on the binding, on a peer, on the source/sink,
  on a wait group, on the rate limiter, on the `closed` channel) is appended to
  `Transport.events`, oldest first.  Logging is not recorded.
* A Go map is an association list with pairwise distinct keys; `range` visits
  the entries in list order, which is arbitrary.
* `nil` errors are `none`; a run-time panic (method call on a nil interface) is
  the outer `none` of an `Option` result.
-/

namespace NoisyTransport

/-- The three lifecycle states of a transport (`type transportState uint32`). -/
inductive transportState where
  | transportStateDown
  | transportStateUp
  | transportStateClosed
  deriving DecidableEq, Repr

open transportState

/-- Go `error` values: those handed back by a collaborator, and the two wrappers
built with `fmt.Errorf("...: %w", err)` in this file. -/
inductive GoError where
  | collaborator (code : Nat)
  | failedToCloseRateLimiter (inner : GoError)
  | failedToUpdatePort (inner : GoError)
  deriving DecidableEq, Repr

/-- A `[32]byte` public key, read as a number. -/
abbrev NoisePublicKey := Nat

/-- A `[32]byte` private key, read as a number. -/
abbrev NoisePrivateKey := Nat

/-- The fields of `Peer.handshake` that `transport.go` reads or writes. -/
structure Handshake where
  remoteStatic : NoisePublicKey
  precomputedStaticStatic : Nat
  deriving DecidableEq, Repr

/-- The part of `*Peer` that `transport.go` touches; `id` stands for the pointer. -/
structure Peer where
  id : Nat
  handshake : Handshake
  persistentKeepaliveInterval : Nat
  deriving DecidableEq, Repr

/-- Calls made by the transport on its collaborators, its peers, its wait groups
and its `closed` channel. -/
inductive Event where
  | limiterInit
  | indexTableInit
  | populatePools
  | stateStoppingWait
  | stateStoppingAdd (n : Nat)
  | encryptionWgAdd (n : Nat)
  | goRoutineEncryption (id : Nat)
  | goRoutineDecryption (id : Nat)
  | goRoutineHandshake (id : Nat)
  | goRoutineReadFromSourceSink
  | bindClose
  | netStoppingWait
  | bindOpen (port : Nat)
  | netStoppingAdd (n : Nat)
  | decryptionWgAdd (n : Nat)
  | handshakeWgAdd (n : Nat)
  | goRoutineReceiveIncoming (batchSize : Int) (fn : Nat)
  | peerStart (id : Nat)
  | peerSendKeepalive (id : Nat)
  | peerStop (id : Nat)
  | peerExpireCurrentKeypairs (id : Nat)
  | cookieCheckerInit (pk : NoisePublicKey)
  | sourceSinkClose
  | encryptionWgDone
  | decryptionWgDone
  | handshakeWgDone
  | limiterClose
  | closeClosed
  deriving DecidableEq, Repr

/-- The methods of `conn.Bind` used here, over a binding state `B`.
`Open port` returns the receive functions, the actual port and an error. -/
structure Bind (B : Type) where
  Open : B → Nat → (List Nat × Nat × Option GoError) × B
  Close : B → Option GoError × B
  BatchSize : B → Int

/-- The methods of `SourceSink` used here, over a source/sink state `S`. -/
structure SourceSink (S : Type) where
  Close : S → Option GoError × S
  BatchSize : S → Int

/-- The methods of `ratelimiter.Ratelimiter` used here, over a limiter state `R`. -/
structure Ratelimiter (R : Type) where
  Init : R → R
  Close : R → Option GoError × R

/-- The behaviour of the three collaborators. -/
structure Env (B S R : Type) where
  bind : Bind B
  sourceSink : SourceSink S
  limiter : Ratelimiter R

/-- The key operations of `noise-helpers.go` used by `SetPrivateKey`;
`sharedSecret` returns the secret together with its error. -/
structure Crypto where
  PublicKey : NoisePrivateKey → NoisePublicKey
  sharedSecret : NoisePrivateKey → NoisePublicKey → Nat × Option GoError

/-- The peer table `map[NoisePublicKey]*Peer`. -/
abbrev KeyMap := List (NoisePublicKey × Peer)

/-- Map indexing `m[k]`. -/
def KeyMap.get : KeyMap → NoisePublicKey → Option Peer
  | [], _ => none
  | (k', p) :: m, k => if k' = k then some p else KeyMap.get m k

/-- The builtin `delete(m, k)`. -/
def KeyMap.delete (m : KeyMap) (k : NoisePublicKey) : KeyMap :=
  m.filter (fun e => decide (e.1 ≠ k))

/-- The keys of a map; a Go map holds each key once. -/
def KeyMap.keys (m : KeyMap) : List NoisePublicKey := m.map Prod.fst

/-- The `Transport` struct. `bind` is `none` for a nil interface; `closed` tells
whether the channel `transport.closed` has been closed; `underLoadUntil` is an
int64 of Unix nanoseconds. -/
structure Transport (B S R : Type) where
  state : transportState
  bind : Option B
  port : Nat
  privateKey : NoisePrivateKey
  publicKey : NoisePublicKey
  keyMap : KeyMap
  underLoadUntil : Int
  limiter : R
  sourceSink : S
  closed : Bool
  events : List Event

variable {B S R : Type}

/-- Append calls to the record of calls. -/
def Transport.emit (t : Transport B S R) (es : List Event) : Transport B S R :=
  { t with events := t.events ++ es }

/-- The method `transport.transportState()`. -/
def Transport.transportState (t : Transport B S R) : transportState := t.state

/-- The method `isClosed`. -/
def isClosed (t : Transport B S R) : Bool :=
  decide (t.transportState = transportStateClosed)

/-- The method `isUp`. -/
def isUp (t : Transport B S R) : Bool :=
  decide (t.transportState = transportStateUp)

/-- The function `removePeerLocked`: stop the peer, then delete its map entry. -/
def removePeerLocked (t : Transport B S R) (peer : Peer) (key : NoisePublicKey) :
    Transport B S R :=
  let t1 := t.emit [Event.peerStop peer.id]
  { t1 with keyMap := t1.keyMap.delete key }

/-- The function `closeBindLocked`: close the binding when there is one, then wait
for the receive routines. -/
def closeBindLocked (E : Env B S R) (t : Transport B S R) :
    Option GoError × Transport B S R :=
  match t.bind with
  | some b =>
    let r := E.bind.Close b
    (r.1, ({ t with bind := some r.2 }).emit [Event.bindClose, Event.netStoppingWait])
  | none => (none, t.emit [Event.netStoppingWait])

/-- The method `BindClose`. -/
def BindClose (E : Env B S R) (t : Transport B S R) : Option GoError × Transport B S R :=
  closeBindLocked E t

/-- The method `BindUpdate`: close the existing sockets and, when the transport is
up, open new ones and start one receive routine per receive function. -/
def BindUpdate (E : Env B S R) (t : Transport B S R) :
    Option (Option GoError × Transport B S R) :=
  let c := closeBindLocked E t
  match c.1 with
  | some err => some (some err, c.2)
  | none =>
    let t1 := c.2
    if !isUp t1 then some (none, t1)
    else
      match t1.bind with
      | none => none
      | some b =>
        let r := E.bind.Open b t1.port
        let recvFns := r.1.1
        let t2 := ({ t1 with bind := some r.2, port := r.1.2.1 }).emit [Event.bindOpen t1.port]
        match r.1.2.2 with
        | some err => some (some err, { t2 with port := 0 })
        | none =>
          let batchSize := E.bind.BatchSize r.2
          some (none, t2.emit
            ([Event.netStoppingAdd recvFns.length, Event.decryptionWgAdd recvFns.length,
              Event.handshakeWgAdd recvFns.length]
              ++ recvFns.map (Event.goRoutineReceiveIncoming batchSize)))

/-- The calls of one iteration of the loop of `upLocked`. -/
def startPeer (peer : Peer) : List Event :=
  if peer.persistentKeepaliveInterval > 0 then
    [Event.peerStart peer.id, Event.peerSendKeepalive peer.id]
  else [Event.peerStart peer.id]

/-- The method `upLocked`. -/
def upLocked (E : Env B S R) (t : Transport B S R) :
    Option (Option GoError × Transport B S R) :=
  match BindUpdate E t with
  | none => none
  | some (some err, t1) => some (some err, t1)
  | some (none, t1) =>
    some (none, t1.keyMap.foldl (fun acc e => acc.emit (startPeer e.2)) t1)

/-- The method `downLocked`: close the binding, stop every peer, return the error
of the close. -/
def downLocked (E : Env B S R) (t : Transport B S R) : Option GoError × Transport B S R :=
  let c := BindClose E t
  (c.1, c.2.keyMap.foldl (fun acc e => acc.emit [Event.peerStop e.2.id]) c.2)

/-- The body of `case transportStateDown` in `changeState`, entered with the error
`err` found so far (`nil` when entered directly). -/
def changeStateDown (E : Env B S R) (t : Transport B S R) (err : Option GoError) :
    Option GoError × Transport B S R :=
  let d := downLocked E { t with state := transportStateDown }
  (if err = none then d.1 else err, d.2)

/-- The method `changeState`. -/
def changeState (E : Env B S R) (t : Transport B S R) (want : transportState) :
    Option (Option GoError × Transport B S R) :=
  let old := t.transportState
  if old = transportStateClosed then some (none, t)
  else if want = old then some (none, t)
  else
    match want with
    | transportStateUp =>
      match upLocked E { t with state := transportStateUp } with
      | none => none
      | some (none, t1) => some (none, t1)
      | some (some err, t1) => some (changeStateDown E t1 (some err))
    | transportStateDown => some (changeStateDown E t none)
    | transportStateClosed => some (none, t)

/-- The method `Up`. -/
def Up (E : Env B S R) (t : Transport B S R) : Option (Option GoError × Transport B S R) :=
  changeState E t transportStateUp

/-- The method `Down`. -/
def Down (E : Env B S R) (t : Transport B S R) : Option (Option GoError × Transport B S R) :=
  changeState E t transportStateDown

/-- The constant `QueueHandshakeSize` of `queueconstants_default.go`. -/
def QueueHandshakeSize : Nat := 1024

/-- The value of a number as an int64 (two's complement wrap-around), as returned
by `Time.UnixNano()` for a time given in nanoseconds since the Unix epoch. -/
def UnixNano (ns : Int) : Int :=
  (ns + 9223372036854775808) % 18446744073709551616 - 9223372036854775808

/-- The numbers that an int64 holds. -/
def int64Range (x : Int) : Prop :=
  -9223372036854775808 ≤ x ∧ x < 9223372036854775808

instance int64RangeDecidable (x : Int) : Decidable (int64Range x) :=
  inferInstanceAs (Decidable (-9223372036854775808 ≤ x ∧ x < 9223372036854775808))

/-- The method `IsUnderLoad`. `now` is the reading of `time.Now()` in nanoseconds
since the Unix epoch, `queueLen` is `len(transport.queue.handshake.c)` at the call, and
`UnderLoadAfterTime` is the duration constant of that name (declared in `constants.go`),
in nanoseconds. -/
def IsUnderLoad (UnderLoadAfterTime : Int) (t : Transport B S R) (now : Int) (queueLen : Nat) :
    Bool × Transport B S R :=
  let underLoad := decide (queueLen ≥ QueueHandshakeSize / 8)
  if underLoad then
    (true, { t with underLoadUntil := UnixNano (now + UnderLoadAfterTime) })
  else (decide (t.underLoadUntil > UnixNano now), t)

/-- The assignment to `handshake.precomputedStaticStatic` in `SetPrivateKey`; the
error returned by `sharedSecret` is assigned to the blank identifier. -/
def precompute (C : Crypto) (sk : NoisePrivateKey) (peer : Peer) : Peer :=
  { peer with handshake :=
      { peer.handshake with
        precomputedStaticStatic := (C.sharedSecret sk peer.handshake.remoteStatic).1 } }

/-- The method `SetPrivateKey`; it has no result. -/
def SetPrivateKey (C : Crypto) (t : Transport B S R) (sk : NoisePrivateKey) : Transport B S R :=
  if sk = t.privateKey then t
  else
    let publicKey := C.PublicKey sk
    let t1 := t.keyMap.foldl
      (fun acc e =>
        if e.2.handshake.remoteStatic = publicKey then removePeerLocked acc e.2 e.1 else acc) t
    let t2 := ({ t1 with privateKey := sk, publicKey := publicKey }).emit
      [Event.cookieCheckerInit publicKey]
    let t3 := { t2 with keyMap := List.map (fun (e : NoisePublicKey × Peer) => (e.1, precompute C t2.privateKey e.2)) t2.keyMap }
    t3.emit (List.map (fun (e : NoisePublicKey × Peer) => Event.peerExpireCurrentKeypairs e.2.id) t3.keyMap)

/-- The function `NewTransport`; `limiter` is the zero value of the rate limiter and
`cpus` is `runtime.NumCPU()`. -/
def NewTransport (E : Env B S R) (sourceSink : S) (bind : Option B) (limiter : R) (cpus : Nat) :
    Transport B S R :=
  { state := transportStateDown
    bind := bind
    port := 0
    privateKey := 0
    publicKey := 0
    keyMap := []
    underLoadUntil := 0
    limiter := E.limiter.Init limiter
    sourceSink := sourceSink
    closed := false
    events :=
      [Event.limiterInit, Event.indexTableInit, Event.populatePools, Event.stateStoppingWait,
        Event.encryptionWgAdd cpus]
      ++ (List.range cpus).flatMap (fun i =>
          [Event.goRoutineEncryption (i + 1), Event.goRoutineDecryption (i + 1),
            Event.goRoutineHandshake (i + 1)])
      ++ [Event.stateStoppingAdd 1, Event.encryptionWgAdd 1, Event.goRoutineReadFromSourceSink] }

/-- The method `BatchSize`: the larger of the batch size of the binding and of the
source/sink. Calling `BatchSize` on a nil binding panics. -/
def BatchSize (E : Env B S R) (t : Transport B S R) : Option Int :=
  match t.bind with
  | none => none
  | some b =>
    let size := E.bind.BatchSize b
    let dSize := E.sourceSink.BatchSize t.sourceSink
    some (if size < dSize then dSize else size)

/-- The method `LookupPeer`. -/
def LookupPeer (t : Transport B S R) (pk : NoisePublicKey) : Option Peer :=
  t.keyMap.get pk

/-- The method `RemovePeer`. -/
def RemovePeer (t : Transport B S R) (key : NoisePublicKey) : Transport B S R :=
  match t.keyMap.get key with
  | some peer => removePeerLocked t peer key
  | none => t

/-- The method `RemoveAllPeers`. -/
def RemoveAllPeers (t : Transport B S R) : Transport B S R :=
  let t1 := t.keyMap.foldl (fun acc e => removePeerLocked acc e.2 e.1) t
  { t1 with keyMap := [] }

/-- The method `Close`. -/
def Close (E : Env B S R) (t : Transport B S R) : Option GoError × Transport B S R :=
  if isClosed t then (none, t)
  else
    let t1 := { t with state := transportStateClosed }
    let s := E.sourceSink.Close t1.sourceSink
    let t2 := ({ t1 with sourceSink := s.2 }).emit [Event.sourceSinkClose]
    let t3 := (downLocked E t2).2
    let t4 := RemoveAllPeers t3
    let t5 := t4.emit [Event.encryptionWgDone, Event.decryptionWgDone, Event.handshakeWgDone,
      Event.stateStoppingWait]
    let l := E.limiter.Close t5.limiter
    let t6 := ({ t5 with limiter := l.2 }).emit [Event.limiterClose]
    match l.1 with
    | some err => (some (GoError.failedToCloseRateLimiter err), t6)
    | none => (none, ({ t6 with closed := true }).emit [Event.closeClosed])

/-- The method `Wait` returns the channel `transport.closed`; the channel is read
here as whether it has been closed. -/
def Wait (t : Transport B S R) : Bool := t.closed

/-- A lifecycle call. -/
inductive LifecycleCall where
  | up
  | down
  | close
  deriving DecidableEq, Repr

/-- One lifecycle call on a transport. -/
def lifecycleStep (E : Env B S R) (t : Transport B S R) :
    LifecycleCall → Option (Option GoError × Transport B S R)
  | LifecycleCall.up => Up E t
  | LifecycleCall.down => Down E t
  | LifecycleCall.close => some (Close E t)

/-- A sequence of lifecycle calls, each made on the transport left by the one before;
`none` when a call panics. -/
def lifecycleRun (E : Env B S R) : Transport B S R → List LifecycleCall →
    Option (Transport B S R)
  | t, [] => some t
  | t, c :: cs =>
    match lifecycleStep E t c with
    | none => none
    | some r => lifecycleRun E r.2 cs

/-- A sequence of `IsUnderLoad` calls, given by the clock reading and the queue
depth of each; the transport after the last one. -/
def underLoadRun (UnderLoadAfterTime : Int) : Transport B S R → List (Int × Nat) →
    Transport B S R
  | t, [] => t
  | t, c :: cs => underLoadRun UnderLoadAfterTime (IsUnderLoad UnderLoadAfterTime t c.1 c.2).2 cs

/-- The error that `BindUpdate` returns on an up transport with binding `b`, read off
the answers of the binding: the error of `Close`, else the error of `Open`. -/
def bindUpdateError (E : Env B S R) (b : B) (port : Nat) : Option GoError :=
  match (E.bind.Close b).1 with
  | some e => some e
  | none => (E.bind.Open (E.bind.Close b).2 port).1.2.2

/-! ## Concrete collaborators and transports, used to instantiate the theorems -/

/-- Collaborators whose state counts the calls made on them and whose `Close` and
`Open` return the given errors. -/
def countingEnv (closeErr openErr limiterErr : Option GoError) : Env Nat Nat Nat :=
  { bind :=
      { Open := fun b port => (([1, 2], port + 1, openErr), b + 1)
        Close := fun b => (closeErr, b + 1)
        BatchSize := fun _ => 128 }
    sourceSink :=
      { Close := fun s => (none, s + 1)
        BatchSize := fun _ => 1 }
    limiter :=
      { Init := fun r => r
        Close := fun r => (limiterErr, r + 1) } }

/-- A peer without persistent keepalive. -/
def peerA : Peer :=
  { id := 1
    handshake := { remoteStatic := 11, precomputedStaticStatic := 77 }
    persistentKeepaliveInterval := 0 }

/-- A peer with persistent keepalive. -/
def peerB : Peer :=
  { id := 2
    handshake := { remoteStatic := 22, precomputedStaticStatic := 88 }
    persistentKeepaliveInterval := 25 }

/-- A transport with two peers, a binding and no recorded calls, in a given state. -/
def sampleTransport (state : transportState) : Transport Nat Nat Nat :=
  { state := state
    bind := some 0
    port := 0
    privateKey := 5
    publicKey := 55
    keyMap := [(11, peerA), (22, peerB)]
    underLoadUntil := 0
    limiter := 0
    sourceSink := 0
    closed := decide (state = transportStateClosed)
    events := [] }

/-- Key operations whose `sharedSecret` always fails, returning the zero secret with
an error, and whose `PublicKey` multiplies by eleven. -/
def failingCrypto : Crypto :=
  { PublicKey := fun sk => sk * 11
    sharedSecret := fun _ _ => (0, some (GoError.collaborator 1)) }

/-- Key operations whose `sharedSecret` succeeds. -/
def workingCrypto : Crypto :=
  { PublicKey := fun sk => sk * 11
    sharedSecret := fun sk pk => (sk + pk + 1, none) }

/-! ## Auxiliary facts about the record of calls and the peer table -/

theorem emit_nil (t : Transport B S R) : t.emit [] = t := by
  cases t
  simp [Transport.emit]

theorem emit_emit (t : Transport B S R) (xs ys : List Event) :
    (t.emit xs).emit ys = t.emit (xs ++ ys) := by
  simp [Transport.emit, List.append_assoc]

theorem foldl_emit (f : NoisePublicKey × Peer → List Event) (m : KeyMap) (t : Transport B S R) :
    m.foldl (fun acc e => acc.emit (f e)) t = t.emit (m.flatMap f) := by
  induction m generalizing t with
  | nil => simp [emit_nil]
  | cons e m ih => simp [List.foldl_cons, ih, emit_emit]

theorem flatMap_single {α β : Type} (f : α → β) (l : List α) :
    l.flatMap (fun e => [f e]) = l.map f := by
  induction l with
  | nil => rfl
  | cons a l ih => simp [List.flatMap_cons, ih]

theorem get_delete_self (m : KeyMap) (k : NoisePublicKey) : (m.delete k).get k = none := by
  induction m with
  | nil => rfl
  | cons e m ih =>
    obtain ⟨k', p⟩ := e
    by_cases h : k' = k
    · simpa [KeyMap.delete, List.filter_cons, h] using ih
    · simpa [KeyMap.delete, List.filter_cons, h, KeyMap.get] using ih

theorem get_delete_ne (m : KeyMap) (k k' : NoisePublicKey) (hk : k' ≠ k) :
    (m.delete k).get k' = m.get k' := by
  induction m with
  | nil => rfl
  | cons e m ih =>
    obtain ⟨k0, p⟩ := e
    by_cases h : k0 = k
    · subst h
      have h' : ¬ k0 = k' := fun h2 => hk h2.symm
      simpa [KeyMap.delete, List.filter_cons, KeyMap.get, h'] using ih
    · by_cases h2 : k0 = k'
      · subst h2
        simp [KeyMap.delete, List.filter_cons, h, KeyMap.get]
      · simpa [KeyMap.delete, List.filter_cons, h, KeyMap.get, h2] using ih

theorem get_of_mem (m : KeyMap) (hnd : m.keys.Nodup) (k : NoisePublicKey) (p : Peer)
    (h : (k, p) ∈ m) : m.get k = some p := by
  induction m with
  | nil => simp at h
  | cons e m ih =>
    obtain ⟨k0, p0⟩ := e
    simp only [KeyMap.keys, List.map_cons, List.nodup_cons, List.mem_map, not_exists,
      not_and] at hnd
    rcases List.mem_cons.mp h with h1 | h1
    · cases h1
      simp [KeyMap.get]
    · have hne : ¬ k0 = k := fun hk => hnd.1 (k, p) h1 hk.symm
      simpa [KeyMap.get, hne] using ih hnd.2 h1

theorem mem_of_get (m : KeyMap) (k : NoisePublicKey) (p : Peer) (h : m.get k = some p) :
    (k, p) ∈ m := by
  induction m with
  | nil => simp [KeyMap.get] at h
  | cons e m ih =>
    obtain ⟨k0, p0⟩ := e
    by_cases hk : k0 = k
    · subst hk
      simp only [KeyMap.get, if_true, Option.some.injEq] at h
      subst h
      exact List.mem_cons_self _ _
    · simp only [KeyMap.get, hk, if_false] at h
      exact List.mem_cons_of_mem _ (ih h)

theorem get_map (f : Peer → Peer) (m : KeyMap) (k : NoisePublicKey) :
    KeyMap.get (m.map (fun e => (e.1, f e.2))) k = (m.get k).map f := by
  induction m with
  | nil => rfl
  | cons e m ih =>
    obtain ⟨k0, p0⟩ := e
    by_cases hk : k0 = k <;> simp [KeyMap.get, hk, ih]

theorem keys_filter_nodup (m : KeyMap) (hnd : m.keys.Nodup)
    (q : NoisePublicKey × Peer → Bool) : KeyMap.keys (m.filter q) |>.Nodup := by
  unfold KeyMap.keys at hnd ⊢
  exact hnd.sublist (List.Sublist.map _ (List.filter_sublist m))

theorem filter_not_deleted (m : KeyMap) (hnd : m.keys.Nodup)
    (q : NoisePublicKey × Peer → Prop) [DecidablePred q] :
    m.filter (fun x => decide (x.1 ∉ (m.filter (fun e => decide (q e))).map Prod.fst)) =
      m.filter (fun x => decide (¬ q x)) := by
  apply List.filter_congr
  intro x hx
  have hiff : x.1 ∈ (m.filter (fun e => decide (q e))).map Prod.fst ↔ q x := by
    constructor
    · intro h
      obtain ⟨y, hy, hxy⟩ := List.mem_map.mp h
      have hym := (List.mem_filter.mp hy).1
      have hqy : q y := by simpa using (List.mem_filter.mp hy).2
      have : y = x := List.inj_on_of_nodup_map hnd hym hx hxy
      exact this ▸ hqy
    · intro h
      exact List.mem_map.mpr ⟨x, List.mem_filter.mpr ⟨hx, by simpa using h⟩, rfl⟩
  by_cases hq : q x <;> simp [hiff, hq]

theorem filter_delete (m : KeyMap) (k : NoisePublicKey) (ks : List NoisePublicKey) :
    (KeyMap.delete m k).filter (fun x => decide (x.1 ∉ ks)) =
      m.filter (fun x => decide (x.1 ∉ k :: ks)) := by
  simp only [KeyMap.delete, List.filter_filter]
  congr 1
  funext x
  by_cases h1 : x.1 = k <;> by_cases h2 : x.1 ∈ ks <;> simp [h1, h2]

theorem foldl_removePeerLocked (p : NoisePublicKey × Peer → Prop) [DecidablePred p]
    (m : KeyMap) (t : Transport B S R) :
    m.foldl (fun acc e => if p e then removePeerLocked acc e.2 e.1 else acc) t =
      { t with
        keyMap := t.keyMap.filter
          (fun x => decide (x.1 ∉ (m.filter (fun e => decide (p e))).map Prod.fst))
        events := t.events ++ (m.filter (fun e => decide (p e))).map
          (fun e => Event.peerStop e.2.id) } := by
  induction m generalizing t with
  | nil => simp
  | cons e m ih =>
    rw [List.foldl_cons]
    by_cases hp : p e
    · have hf : (e :: m).filter (fun e => decide (p e)) =
          e :: m.filter (fun e => decide (p e)) := by
        simp [List.filter_cons, hp]
      rw [if_pos hp, ih, hf]
      simp only [removePeerLocked, Transport.emit, filter_delete]
      simp
    · have hf : (e :: m).filter (fun e => decide (p e)) = m.filter (fun e => decide (p e)) := by
        simp [List.filter_cons, hp]
      rw [if_neg hp, ih, hf]

theorem RemoveAllPeers_eq (t : Transport B S R) :
    RemoveAllPeers t =
      { t with
        keyMap := []
        events := t.events ++ t.keyMap.map (fun e => Event.peerStop e.2.id) } := by
  have h := foldl_removePeerLocked (fun _ => True) t.keyMap t
  simp only [if_true] at h
  simp [RemoveAllPeers, h]

theorem closeBindLocked_some (E : Env B S R) (t : Transport B S R) (b : B)
    (hb : t.bind = some b) :
    closeBindLocked E t =
      ((E.bind.Close b).1,
        ({ t with bind := some (E.bind.Close b).2 }).emit
          [Event.bindClose, Event.netStoppingWait]) := by
  simp [closeBindLocked, hb]

theorem downLocked_some (E : Env B S R) (t : Transport B S R) (b : B) (hb : t.bind = some b) :
    downLocked E t =
      ((E.bind.Close b).1,
        ({ t with bind := some (E.bind.Close b).2 }).emit
          ([Event.bindClose, Event.netStoppingWait]
            ++ t.keyMap.flatMap (fun e => [Event.peerStop e.2.id]))) := by
  simp only [downLocked, BindClose, closeBindLocked_some E t b hb, foldl_emit, emit_emit]
  simp [Transport.emit]

theorem downLocked_state (E : Env B S R) (t : Transport B S R) :
    (downLocked E t).2.state = t.state := by
  simp only [downLocked, BindClose, foldl_emit]
  cases hb : t.bind <;> simp [closeBindLocked, hb, Transport.emit]

theorem BindUpdate_up (E : Env B S R) (t : Transport B S R) (b : B)
    (hs : t.state = transportStateUp) (hb : t.bind = some b) :
    ∃ tu, BindUpdate E t = some (bindUpdateError E b t.port, tu) ∧
      tu.state = transportStateUp := by
  cases hc : (E.bind.Close b).1 with
  | some e =>
    simp [BindUpdate, closeBindLocked, hb, hc, bindUpdateError, Transport.emit, hs]
  | none =>
    cases ho : (E.bind.Open (E.bind.Close b).2 t.port).1.2.2 with
    | some e =>
      simp [BindUpdate, closeBindLocked, hb, hc, bindUpdateError, Transport.emit, hs, isUp,
        Transport.transportState, ho]
    | none =>
      simp [BindUpdate, closeBindLocked, hb, hc, bindUpdateError, Transport.emit, hs, isUp,
        Transport.transportState, ho]

/-! ## Bringing the transport up and down -/

/-- C1: for a transport in state down with a binding `b`, whatever the binding answers,
`BindUpdate` (run by `Up` with the state already set to up) returns a result `err`, which
is nil exactly when both closing the old binding and opening the new one succeed;
`Up` returns nil with the state up exactly when `err` is nil, and otherwise the
state is down and the error returned is `err` (the error of the close, else of the
open), never the error of the bring-down that follows. -/
theorem Up_from_down (E : Env B S R) (t : Transport B S R) (b : B)
    (hs : t.state = transportStateDown) (hb : t.bind = some b) :
    ∃ err tu ret t',
      BindUpdate E { t with state := transportStateUp } = some (err, tu) ∧
      Up E t = some (ret, t') ∧
      (err = none ↔
        (E.bind.Close b).1 = none ∧ (E.bind.Open (E.bind.Close b).2 t.port).1.2.2 = none) ∧
      err = bindUpdateError E b t.port ∧
      ((ret = none ∧ t'.state = transportStateUp) ↔ err = none) ∧
      (err ≠ none → ret = err ∧ t'.state = transportStateDown) := by
  obtain ⟨tu, hbu, htu⟩ :=
    BindUpdate_up E { t with state := transportStateUp } b rfl hb
  have hiff : bindUpdateError E b t.port = none ↔
      (E.bind.Close b).1 = none ∧ (E.bind.Open (E.bind.Close b).2 t.port).1.2.2 = none := by
    unfold bindUpdateError
    cases (E.bind.Close b).1 <;> simp
  cases he : bindUpdateError E b t.port with
  | none =>
    rw [he] at hbu hiff
    refine ⟨none, tu, none, tu.keyMap.foldl (fun acc e => acc.emit (startPeer e.2)) tu,
      hbu, ?_, hiff, rfl, ?_, ?_⟩
    · simp [Up, changeState, Transport.transportState, hs, upLocked, hbu]
    · rw [foldl_emit]
      simp [Transport.emit, htu]
    · simp
  | some e =>
    rw [he] at hbu hiff
    refine ⟨some e, tu, some e, (changeStateDown E tu (some e)).2, hbu, ?_, hiff, rfl, ?_, ?_⟩
    · simp [Up, changeState, Transport.transportState, hs, upLocked, hbu, changeStateDown]
    · simp
    · simp [changeStateDown, downLocked_state]

theorem Up_from_down_witness :
    (sampleTransport transportStateDown).state = transportStateDown ∧
    (sampleTransport transportStateDown).bind = some 0 ∧
    ∃ err tu ret t',
      BindUpdate (countingEnv none (some (GoError.collaborator 7)) none)
        { sampleTransport transportStateDown with state := transportStateUp } = some (err, tu) ∧
      Up (countingEnv none (some (GoError.collaborator 7)) none)
        (sampleTransport transportStateDown) = some (ret, t') ∧
      (err = none ↔
        ((countingEnv none (some (GoError.collaborator 7)) none).bind.Close 0).1 = none ∧
        ((countingEnv none (some (GoError.collaborator 7)) none).bind.Open
          ((countingEnv none (some (GoError.collaborator 7)) none).bind.Close 0).2
          (sampleTransport transportStateDown).port).1.2.2 = none) ∧
      err = bindUpdateError (countingEnv none (some (GoError.collaborator 7)) none) 0
        (sampleTransport transportStateDown).port ∧
      ((ret = none ∧ t'.state = transportStateUp) ↔ err = none) ∧
      (err ≠ none → ret = err ∧ t'.state = transportStateDown) :=
  ⟨rfl, rfl,
    Up_from_down (countingEnv none (some (GoError.collaborator 7)) none)
      (sampleTransport transportStateDown) 0 rfl rfl⟩

theorem Close_closed (E : Env B S R) (t : Transport B S R)
    (h : t.state = transportStateClosed) : Close E t = (none, t) := by
  simp [Close, isClosed, Transport.transportState, h]

theorem changeState_closed (E : Env B S R) (t : Transport B S R) (want : transportState)
    (h : t.state = transportStateClosed) : changeState E t want = some (none, t) := by
  simp [changeState, Transport.transportState, h]

theorem lifecycleRun_closed (E : Env B S R) (t : Transport B S R)
    (h : t.state = transportStateClosed) (cs : List LifecycleCall) :
    lifecycleRun E t cs = some t := by
  induction cs with
  | nil => rfl
  | cons c cs ih =>
    cases c <;>
      simp [lifecycleRun, lifecycleStep, Up, Down, changeState_closed E t _ h,
        Close_closed E t h, ih]

theorem downLocked_eq (E : Env B S R) (t : Transport B S R) :
    (downLocked E t).2 =
      { t with
        bind := t.bind.map (fun b => (E.bind.Close b).2)
        events := t.events
          ++ (if t.bind.isSome then [Event.bindClose, Event.netStoppingWait]
              else [Event.netStoppingWait])
          ++ t.keyMap.map (fun e => Event.peerStop e.2.id) } := by
  simp only [downLocked, BindClose, foldl_emit,
    flatMap_single (fun e : NoisePublicKey × Peer => Event.peerStop e.2.id)]
  cases hb : t.bind <;> simp [closeBindLocked, hb, Transport.emit]

theorem Close_open (E : Env B S R) (t : Transport B S R)
    (hs : t.state ≠ transportStateClosed) :
    Close E t =
      ((E.limiter.Close t.limiter).1.map GoError.failedToCloseRateLimiter,
        { state := transportStateClosed
          bind := t.bind.map (fun b => (E.bind.Close b).2)
          port := t.port
          privateKey := t.privateKey
          publicKey := t.publicKey
          keyMap := []
          underLoadUntil := t.underLoadUntil
          limiter := (E.limiter.Close t.limiter).2
          sourceSink := (E.sourceSink.Close t.sourceSink).2
          closed := if (E.limiter.Close t.limiter).1 = none then true else t.closed
          events := t.events ++ [Event.sourceSinkClose]
            ++ (if t.bind.isSome then [Event.bindClose, Event.netStoppingWait]
                else [Event.netStoppingWait])
            ++ t.keyMap.map (fun e => Event.peerStop e.2.id)
            ++ t.keyMap.map (fun e => Event.peerStop e.2.id)
            ++ [Event.encryptionWgDone, Event.decryptionWgDone, Event.handshakeWgDone,
                Event.stateStoppingWait, Event.limiterClose]
            ++ (if (E.limiter.Close t.limiter).1 = none then [Event.closeClosed] else []) }) := by
  simp only [Close, isClosed, Transport.transportState, hs, decide_False, Bool.false_eq_true,
    if_false, downLocked_eq, RemoveAllPeers_eq, Transport.emit]
  cases hl : (E.limiter.Close t.limiter).1 <;> simp [hl]

theorem Close_state (E : Env B S R) (t : Transport B S R) :
    (Close E t).2.state = transportStateClosed := by
  by_cases hs : t.state = transportStateClosed
  · rw [Close_closed E t hs]
    exact hs
  · rw [Close_open E t hs]

theorem SetPrivateKey_eq (C : Crypto) (t : Transport B S R) (sk : NoisePrivateKey)
    (hne : sk ≠ t.privateKey) :
    SetPrivateKey C t sk =
      { t with
        privateKey := sk
        publicKey := C.PublicKey sk
        keyMap := (t.keyMap.filter (fun x => decide (x.1 ∉
            (t.keyMap.filter
              (fun e => decide (e.2.handshake.remoteStatic = C.PublicKey sk))).map Prod.fst))).map
          (fun e => (e.1, precompute C sk e.2))
        events := t.events
          ++ (t.keyMap.filter
              (fun e => decide (e.2.handshake.remoteStatic = C.PublicKey sk))).map
                (fun e => Event.peerStop e.2.id)
          ++ [Event.cookieCheckerInit (C.PublicKey sk)]
          ++ (t.keyMap.filter (fun x => decide (x.1 ∉
              (t.keyMap.filter
                (fun e => decide (e.2.handshake.remoteStatic = C.PublicKey sk))).map
                  Prod.fst))).map
            (fun e => Event.peerExpireCurrentKeypairs e.2.id) } := by
  simp only [SetPrivateKey, if_neg hne,
    foldl_removePeerLocked (fun e => e.2.handshake.remoteStatic = C.PublicKey sk),
    Transport.emit]
  simp [precompute, Function.comp_def]

theorem SetPrivateKey_keyMap (C : Crypto) (t : Transport B S R) (sk : NoisePrivateKey)
    (hne : sk ≠ t.privateKey) (hnd : t.keyMap.keys.Nodup) :
    (SetPrivateKey C t sk).keyMap =
      (t.keyMap.filter
        (fun x => decide (¬ x.2.handshake.remoteStatic = C.PublicKey sk))).map
        (fun e => (e.1, precompute C sk e.2)) := by
  rw [SetPrivateKey_eq C t sk hne]
  simp only
  rw [filter_not_deleted t.keyMap hnd (fun e => e.2.handshake.remoteStatic = C.PublicKey sk)]

/-- C2: when the transport is closed, or already in the requested state, `changeState`
(hence `Up` for the request up and `Down` for the request down) returns nil and leaves
the whole transport as it was: the lifecycle state, the binding and the record of calls,
so that no open, close, start or stop is made. A closed transport is left unchanged,
hence closed, by every sequence of lifecycle calls. -/
theorem changeState_noop (E : Env B S R) (t : Transport B S R) (want : transportState)
    (h : t.state = transportStateClosed ∨ t.state = want) :
    changeState E t want = some (none, t) ∧
    (want = transportStateUp → Up E t = some (none, t)) ∧
    (want = transportStateDown → Down E t = some (none, t)) ∧
    (t.state = transportStateClosed →
      Up E t = some (none, t) ∧ Down E t = some (none, t) ∧
      ∀ cs : List LifecycleCall, ∃ t', lifecycleRun E t cs = some t' ∧
        t' = t ∧ t'.state = transportStateClosed) := by
  have key : changeState E t want = some (none, t) := by
    rcases h with h | h
    · exact changeState_closed E t want h
    · by_cases hc : t.state = transportStateClosed
      · exact changeState_closed E t want hc
      · simp [changeState, Transport.transportState, h]
  refine ⟨key, ?_, ?_, ?_⟩
  · intro hw
    subst hw
    exact key
  · intro hw
    subst hw
    exact key
  · intro hc
    exact ⟨changeState_closed E t _ hc, changeState_closed E t _ hc,
      fun cs => ⟨t, lifecycleRun_closed E t hc cs, rfl, hc⟩⟩

theorem changeState_noop_witness :
    Up (countingEnv none none none) (sampleTransport transportStateUp) =
      some (none, sampleTransport transportStateUp) ∧
    lifecycleRun (countingEnv none none none) (sampleTransport transportStateClosed)
      [LifecycleCall.up, LifecycleCall.down, LifecycleCall.up] =
      some (sampleTransport transportStateClosed) :=
  ⟨(changeState_noop (countingEnv none none none) (sampleTransport transportStateUp)
      transportStateUp (Or.inr rfl)).2.1 rfl,
    by
      obtain ⟨t', h1, h2, _⟩ :=
        ((changeState_noop (countingEnv none none none) (sampleTransport transportStateClosed)
          transportStateDown (Or.inl rfl)).2.2.2 rfl).2.2
          [LifecycleCall.up, LifecycleCall.down, LifecycleCall.up]
      rw [h1, h2]⟩

/-- C5: for a transport in state up with a binding `b`, `Down` makes one `Close` call on
the binding, then one `Stop` call on every peer of the peer table, leaves the state down
and the peer table as it was, and returns exactly what the `Close` of the binding
returned (nil or its error), whatever that is. -/
theorem Down_from_up (E : Env B S R) (t : Transport B S R) (b : B)
    (hs : t.state = transportStateUp) (hb : t.bind = some b) :
    ∃ t', Down E t = some ((E.bind.Close b).1, t') ∧
      t'.state = transportStateDown ∧
      t'.bind = some (E.bind.Close b).2 ∧
      t'.keyMap = t.keyMap ∧
      t'.events = t.events ++ [Event.bindClose, Event.netStoppingWait]
        ++ t.keyMap.map (fun e => Event.peerStop e.2.id) ∧
      (∀ e ∈ t.keyMap, Event.peerStop e.2.id ∈ t'.events) := by
  have hd := downLocked_some E { t with state := transportStateDown } b hb
  have hD : Down E t = some (downLocked E { t with state := transportStateDown }) := by
    simp [Down, changeState, Transport.transportState, hs, changeStateDown]
  refine ⟨(downLocked E { t with state := transportStateDown }).2, ?_, ?_, ?_, ?_, ?_, ?_⟩
  · rw [hD, hd]
  · rw [hd]
    rfl
  · rw [hd]
    rfl
  · rw [hd]
    rfl
  · rw [hd]
    simp [Transport.emit, flatMap_single (fun e : NoisePublicKey × Peer => Event.peerStop e.2.id)]
  · rw [hd]
    intro e he
    simp only [Transport.emit, List.mem_append, List.mem_flatMap]
    exact Or.inr (Or.inr ⟨e, he, by simp⟩)

theorem Down_from_up_witness :
    (sampleTransport transportStateUp).state = transportStateUp ∧
    (sampleTransport transportStateUp).bind = some 0 ∧
    ∃ t', Down (countingEnv (some (GoError.collaborator 3)) none none)
        (sampleTransport transportStateUp) =
        some (((countingEnv (some (GoError.collaborator 3)) none none).bind.Close 0).1, t') ∧
      t'.state = transportStateDown ∧
      t'.bind = some ((countingEnv (some (GoError.collaborator 3)) none none).bind.Close 0).2 ∧
      t'.keyMap = (sampleTransport transportStateUp).keyMap ∧
      t'.events = (sampleTransport transportStateUp).events
        ++ [Event.bindClose, Event.netStoppingWait]
        ++ (sampleTransport transportStateUp).keyMap.map (fun e => Event.peerStop e.2.id) ∧
      (∀ e ∈ (sampleTransport transportStateUp).keyMap, Event.peerStop e.2.id ∈ t'.events) :=
  ⟨rfl, rfl,
    Down_from_up (countingEnv (some (GoError.collaborator 3)) none none)
      (sampleTransport transportStateUp) 0 rfl rfl⟩

/-! ## Closing the transport -/

/-- C3: `Close` is idempotent. Whatever the collaborators do, the first call leaves
the state closed, and a second call returns nil and leaves the transport exactly as the
first one left it: same lifecycle state, same collaborator states and the same record of
calls, so that the second call closes, stops, releases and signals nothing. -/
theorem Close_idempotent (E : Env B S R) (t : Transport B S R) :
    (Close E t).2.state = transportStateClosed ∧
    Close E (Close E t).2 = (none, (Close E t).2) ∧
    (Close E (Close E t).2).2.state = (Close E t).2.state ∧
    (Close E (Close E t).2).2.events = (Close E t).2.events := by
  have h := Close_closed E (Close E t).2 (Close_state E t)
  refine ⟨Close_state E t, h, ?_, ?_⟩ <;> rw [h]

/-- C4 (the code departs from it when the release of the rate limiter fails): for a
transport that is not closed, whose `closed` channel is open and unsignalled, and whose
rate limiter answers `Close` with an error `e`, `Close` has released the rate limiter
(one `Close` call on it), returns `e` wrapped, leaves the state closed, and returns
before `close(transport.closed)`: the channel returned by `Wait` is not closed, no
signal is recorded, and no later sequence of lifecycle calls changes that. -/
theorem Close_limiter_failure (E : Env B S R) (t : Transport B S R) (e : GoError)
    (hs : t.state ≠ transportStateClosed) (hc : t.closed = false)
    (hn : Event.closeClosed ∉ t.events)
    (hl : (E.limiter.Close t.limiter).1 = some e) :
    (Close E t).1 = some (GoError.failedToCloseRateLimiter e) ∧
    (Close E t).2.state = transportStateClosed ∧
    (Close E t).2.limiter = (E.limiter.Close t.limiter).2 ∧
    Event.limiterClose ∈ (Close E t).2.events ∧
    Wait (Close E t).2 = false ∧
    Event.closeClosed ∉ (Close E t).2.events ∧
    ∀ cs : List LifecycleCall, ∃ t', lifecycleRun E (Close E t).2 cs = some t' ∧
      Wait t' = false ∧ Event.closeClosed ∉ t'.events := by
  have hw : Wait (Close E t).2 = false := by
    rw [Close_open E t hs]
    simp [Wait, hl, hc]
  have he : Event.closeClosed ∉ (Close E t).2.events := by
    rw [Close_open E t hs]
    have h1 : Event.closeClosed ∉
        (if t.bind.isSome then [Event.bindClose, Event.netStoppingWait]
          else [Event.netStoppingWait]) := by
      split <;> simp
    simp [hl, hn, h1]
  refine ⟨?_, Close_state E t, ?_, ?_, hw, he, ?_⟩
  · rw [Close_open E t hs]
    simp [hl]
  · rw [Close_open E t hs]
  · rw [Close_open E t hs]
    simp
  · intro cs
    exact ⟨(Close E t).2, lifecycleRun_closed E _ (Close_state E t) cs, hw, he⟩

theorem Close_limiter_failure_witness :
    (Close (countingEnv none none (some (GoError.collaborator 9)))
        (sampleTransport transportStateUp)).1 =
      some (GoError.failedToCloseRateLimiter (GoError.collaborator 9)) ∧
    (Close (countingEnv none none (some (GoError.collaborator 9)))
        (sampleTransport transportStateUp)).2.state = transportStateClosed ∧
    Event.limiterClose ∈ (Close (countingEnv none none (some (GoError.collaborator 9)))
        (sampleTransport transportStateUp)).2.events ∧
    Wait (Close (countingEnv none none (some (GoError.collaborator 9)))
        (sampleTransport transportStateUp)).2 = false ∧
    Event.closeClosed ∉ (Close (countingEnv none none (some (GoError.collaborator 9)))
        (sampleTransport transportStateUp)).2.events :=
  have h := Close_limiter_failure (countingEnv none none (some (GoError.collaborator 9)))
    (sampleTransport transportStateUp) (GoError.collaborator 9) (by decide) rfl (by decide) rfl
  ⟨h.1, h.2.1, h.2.2.2.1, h.2.2.2.2.1, h.2.2.2.2.2.1⟩

/-! ## The peer table -/

/-- C10: `RemovePeer(k)` leaves no peer under `k`, leaves the lookup of every other key
as it was, makes exactly one call, `Stop` on the peer that was stored under `k`, when
there is one, and changes nothing at all (no deletion, no call) when `k` is absent. -/
theorem RemovePeer_frame (t : Transport B S R) (k : NoisePublicKey) :
    LookupPeer (RemovePeer t k) k = none ∧
    (∀ k', k' ≠ k → LookupPeer (RemovePeer t k) k' = LookupPeer t k') ∧
    (∀ p, LookupPeer t k = some p →
      (RemovePeer t k).events = t.events ++ [Event.peerStop p.id]) ∧
    (LookupPeer t k = none → RemovePeer t k = t) := by
  cases h : t.keyMap.get k with
  | none =>
    have hr : RemovePeer t k = t := by simp [RemovePeer, h]
    rw [hr]
    simp [LookupPeer, h]
  | some p =>
    have hr : RemovePeer t k = removePeerLocked t p k := by simp [RemovePeer, h]
    rw [hr]
    refine ⟨?_, ?_, ?_, ?_⟩
    · simp [LookupPeer, removePeerLocked, Transport.emit, get_delete_self]
    · intro k' hk
      simp [LookupPeer, removePeerLocked, Transport.emit, get_delete_ne _ _ _ hk]
    · intro q hq
      simp only [LookupPeer, h, Option.some.injEq] at hq
      subst hq
      simp [removePeerLocked, Transport.emit]
    · simp [LookupPeer, h]

theorem RemovePeer_frame_witness :
    LookupPeer (RemovePeer (sampleTransport transportStateUp) 11) 11 = none ∧
    LookupPeer (RemovePeer (sampleTransport transportStateUp) 11) 22 = some peerB ∧
    (RemovePeer (sampleTransport transportStateUp) 11).events = [Event.peerStop 1] ∧
    RemovePeer (sampleTransport transportStateUp) 33 = sampleTransport transportStateUp :=
  ⟨(RemovePeer_frame (sampleTransport transportStateUp) 11).1,
    (RemovePeer_frame (sampleTransport transportStateUp) 11).2.1 22 (by decide),
    (RemovePeer_frame (sampleTransport transportStateUp) 11).2.2.1 peerA rfl,
    (RemovePeer_frame (sampleTransport transportStateUp) 33).2.2.2 rfl⟩

/-- C7: for a peer table (a map, so with distinct keys) and a private key `sk` different
from the current one, after `SetPrivateKey(sk)` no peer of the table has a remote static
key equal to the public key of `sk`; every peer that had one is gone from the table and
was stopped by this call (its `Stop` is among the calls appended, one per such peer,
however many there are); and every peer with a different remote static key is still
found under its key, the same peer (same identity, same remote static key, same keepalive
interval) with its precomputed secret refreshed. -/
theorem SetPrivateKey_removes (C : Crypto) (t : Transport B S R) (sk : NoisePrivateKey)
    (hne : sk ≠ t.privateKey) (hnd : t.keyMap.keys.Nodup) :
    (∀ e ∈ (SetPrivateKey C t sk).keyMap, e.2.handshake.remoteStatic ≠ C.PublicKey sk) ∧
    (∃ rest, (SetPrivateKey C t sk).events =
      t.events
        ++ (t.keyMap.filter
            (fun e => decide (e.2.handshake.remoteStatic = C.PublicKey sk))).map
              (fun e => Event.peerStop e.2.id)
        ++ rest) ∧
    (∀ e ∈ t.keyMap, e.2.handshake.remoteStatic = C.PublicKey sk →
      LookupPeer (SetPrivateKey C t sk) e.1 = none ∧
      Event.peerStop e.2.id ∈ (SetPrivateKey C t sk).events.drop t.events.length) ∧
    (∀ e ∈ t.keyMap, e.2.handshake.remoteStatic ≠ C.PublicKey sk →
      ∃ p', LookupPeer (SetPrivateKey C t sk) e.1 = some p' ∧
        p' = precompute C sk e.2 ∧ p'.id = e.2.id ∧
        p'.handshake.remoteStatic = e.2.handshake.remoteStatic ∧
        p'.persistentKeepaliveInterval = e.2.persistentKeepaliveInterval) := by
  have hkm := SetPrivateKey_keyMap C t sk hne hnd
  have hev := SetPrivateKey_eq C t sk hne
  refine ⟨?_, ?_, ?_, ?_⟩
  · intro e he
    rw [hkm] at he
    obtain ⟨x, hx, rfl⟩ := List.mem_map.mp he
    have := (List.mem_filter.mp hx).2
    simpa [precompute] using this
  · refine ⟨[Event.cookieCheckerInit (C.PublicKey sk)]
      ++ (SetPrivateKey C t sk).keyMap.map (fun e => Event.peerExpireCurrentKeypairs e.2.id), ?_⟩
    rw [hev]
    simp [List.map_map, Function.comp_def, precompute]
  · intro e he hm
    constructor
    · unfold LookupPeer
      rw [hkm, get_map]
      cases hg : KeyMap.get (t.keyMap.filter
          (fun x => decide (¬ x.2.handshake.remoteStatic = C.PublicKey sk))) e.1 with
      | none => rfl
      | some q =>
        exfalso
        have hq := List.mem_filter.mp (mem_of_get _ _ _ hg)
        have h1 := get_of_mem t.keyMap hnd e.1 q hq.1
        have h2 := get_of_mem t.keyMap hnd e.1 e.2 he
        rw [h1] at h2
        cases h2
        simp [hm] at hq
    · rw [hev]
      simp only [List.append_assoc, List.drop_left]
      exact List.mem_append_left _
        (List.mem_map.mpr ⟨e, List.mem_filter.mpr ⟨he, by simpa using hm⟩, rfl⟩)
  · intro e he hm
    refine ⟨precompute C sk e.2, ?_, rfl, rfl, rfl, rfl⟩
    unfold LookupPeer
    rw [hkm, get_map]
    have hmem : (e.1, e.2) ∈ t.keyMap.filter
        (fun x => decide (¬ x.2.handshake.remoteStatic = C.PublicKey sk)) :=
      List.mem_filter.mpr ⟨he, by simpa using hm⟩
    rw [get_of_mem _ (keys_filter_nodup t.keyMap hnd _) e.1 e.2 hmem]
    rfl

theorem SetPrivateKey_removes_witness :
    LookupPeer (SetPrivateKey workingCrypto (sampleTransport transportStateUp) 2) 22 = none ∧
    Event.peerStop 2 ∈ (SetPrivateKey workingCrypto (sampleTransport transportStateUp) 2).events.drop
      (sampleTransport transportStateUp).events.length ∧
    (∃ p', LookupPeer (SetPrivateKey workingCrypto (sampleTransport transportStateUp) 2) 11 =
        some p' ∧ p' = precompute workingCrypto 2 peerA ∧ p'.id = 1 ∧
        p'.handshake.remoteStatic = 11 ∧ p'.persistentKeepaliveInterval = 0) :=
  have h := SetPrivateKey_removes workingCrypto (sampleTransport transportStateUp) 2
    (by decide) (by decide)
  ⟨(h.2.2.1 (22, peerB) (by decide) (by decide)).1,
    (h.2.2.1 (22, peerB) (by decide) (by decide)).2,
    h.2.2.2 (11, peerA) (by decide) (by decide)⟩

/-- C6, counterexample: with key operations whose `sharedSecret` fails for every peer,
`SetPrivateKey(6)` on a transport holding private key 5 and public key 55 does not roll
back: the static identity is replaced and the precomputed secret of the peer under key 11
is overwritten. -/
theorem SetPrivateKey_failure_not_rolled_back :
    (∃ e ∈ (sampleTransport transportStateUp).keyMap,
      (failingCrypto.sharedSecret 6 e.2.handshake.remoteStatic).2 ≠ none) ∧
    (SetPrivateKey failingCrypto (sampleTransport transportStateUp) 6).privateKey ≠
      (sampleTransport transportStateUp).privateKey ∧
    (SetPrivateKey failingCrypto (sampleTransport transportStateUp) 6).publicKey ≠
      (sampleTransport transportStateUp).publicKey ∧
    LookupPeer (SetPrivateKey failingCrypto (sampleTransport transportStateUp) 6) 11 ≠
      LookupPeer (sampleTransport transportStateUp) 11 :=
  ⟨⟨(11, peerA), by decide, by decide⟩, by decide, by decide, by decide⟩

/-- C6, amended: `SetPrivateKey` returns nothing and discards the error of `sharedSecret`.
For every `sk` different from the current private key, whether or not `sharedSecret`
fails, the static identity becomes `sk` with its public key, and every peer left in the
table has its precomputed static-static secret overwritten with the value that
`sharedSecret` returned for its remote static key. -/
theorem SetPrivateKey_updates (C : Crypto) (t : Transport B S R) (sk : NoisePrivateKey)
    (hne : sk ≠ t.privateKey) :
    (SetPrivateKey C t sk).privateKey = sk ∧
    (SetPrivateKey C t sk).publicKey = C.PublicKey sk ∧
    (∀ e ∈ (SetPrivateKey C t sk).keyMap,
      e.2.handshake.precomputedStaticStatic =
        (C.sharedSecret sk e.2.handshake.remoteStatic).1) := by
  rw [SetPrivateKey_eq C t sk hne]
  refine ⟨rfl, rfl, ?_⟩
  intro e he
  obtain ⟨x, _, rfl⟩ := List.mem_map.mp he
  rfl

theorem SetPrivateKey_updates_witness :
    (SetPrivateKey failingCrypto (sampleTransport transportStateUp) 6).privateKey = 6 ∧
    (SetPrivateKey failingCrypto (sampleTransport transportStateUp) 6).publicKey = 66 ∧
    (∀ e ∈ (SetPrivateKey failingCrypto (sampleTransport transportStateUp) 6).keyMap,
      e.2.handshake.precomputedStaticStatic =
        (failingCrypto.sharedSecret 6 e.2.handshake.remoteStatic).1) :=
  SetPrivateKey_updates failingCrypto (sampleTransport transportStateUp) 6 (by decide)

/-! ## Load detection -/

theorem UnixNano_of_range (x : Int) (h : int64Range x) : UnixNano x = x := by
  unfold int64Range at h
  unfold UnixNano
  omega

theorem IsUnderLoad_over (U : Int) (t : Transport B S R) (now : Int) (q : Nat)
    (h : q ≥ QueueHandshakeSize / 8) :
    IsUnderLoad U t now q = (true, { t with underLoadUntil := UnixNano (now + U) }) := by
  simp [IsUnderLoad, h]

theorem IsUnderLoad_below (U : Int) (t : Transport B S R) (now : Int) (q : Nat)
    (h : q < QueueHandshakeSize / 8) :
    IsUnderLoad U t now q = (decide (t.underLoadUntil > UnixNano now), t) := by
  have h' : ¬ q ≥ QueueHandshakeSize / 8 := Nat.not_le.mpr h
  simp [IsUnderLoad, h']

theorem underLoadRun_below (U : Int) (t : Transport B S R) (cs : List (Int × Nat))
    (h : ∀ c ∈ cs, c.2 < QueueHandshakeSize / 8) : underLoadRun U t cs = t := by
  induction cs generalizing t with
  | nil => rfl
  | cons c cs ih =>
    rw [underLoadRun, IsUnderLoad_below U t c.1 c.2 (h c (List.mem_cons_self _ _))]
    exact ih t (fun c' hc' => h c' (List.mem_cons_of_mem _ hc'))

theorem underLoadRun_ge (U : Int) (t : Transport B S R) (cs : List (Int × Nat)) (t0 : Int)
    (h : ∀ c ∈ cs, t0 ≤ c.1 ∧ int64Range (c.1 + U)) (ht : t0 + U ≤ t.underLoadUntil) :
    t0 + U ≤ (underLoadRun U t cs).underLoadUntil := by
  induction cs generalizing t with
  | nil => exact ht
  | cons c cs ih =>
    rw [underLoadRun]
    apply ih _ (fun c' hc' => h c' (List.mem_cons_of_mem _ hc'))
    have hc := h c (List.mem_cons_self _ _)
    by_cases hq : c.2 ≥ QueueHandshakeSize / 8
    · rw [IsUnderLoad_over U t c.1 c.2 hq]
      simp only [UnixNano_of_range _ hc.2]
      omega
    · rw [IsUnderLoad_below U t c.1 c.2 (Nat.not_le.mp hq)]
      exact ht

/-- C8, counterexample: with no sticky record later than now, a handshake queue holding
exactly 128 elements, which is not strictly more than `QueueHandshakeSize/8`, already makes
`IsUnderLoad` return true. -/
theorem IsUnderLoad_at_threshold :
    (sampleTransport transportStateUp).underLoadUntil ≤ UnixNano 1000 ∧
    ¬ (128 > QueueHandshakeSize / 8) ∧
    (IsUnderLoad 1000000000 (sampleTransport transportStateUp) 1000 128).1 = true := by
  refine ⟨by decide, by decide, ?_⟩
  rw [IsUnderLoad_over _ _ _ _ (by decide)]

/-- C8, amended: when `underLoadUntil` is not later than the clock reading, `IsUnderLoad`
returns true if and only if the handshake queue depth is at least `QueueHandshakeSize/8`,
which is 128 for the default capacity 1024 (a depth equal to 128 counts). -/
theorem IsUnderLoad_iff (U : Int) (t : Transport B S R) (now : Int) (q : Nat)
    (h : t.underLoadUntil ≤ UnixNano now) :
    ((IsUnderLoad U t now q).1 = true ↔ q ≥ QueueHandshakeSize / 8) ∧
    QueueHandshakeSize / 8 = 128 ∧
    ((IsUnderLoad U t now q).1 = true ↔ q ≥ 128) := by
  have h128 : QueueHandshakeSize / 8 = 128 := by decide
  have key : (IsUnderLoad U t now q).1 = true ↔ q ≥ QueueHandshakeSize / 8 := by
    by_cases hq : q ≥ QueueHandshakeSize / 8
    · rw [IsUnderLoad_over U t now q hq]
      simp [hq]
    · rw [IsUnderLoad_below U t now q (Nat.not_le.mp hq)]
      simp only [decide_eq_true_eq, gt_iff_lt]
      constructor
      · intro hlt
        exact absurd hlt (Int.not_lt.mpr h)
      · intro hge
        exact absurd hge hq
  exact ⟨key, h128, h128 ▸ key⟩

theorem IsUnderLoad_iff_witness :
    (sampleTransport transportStateUp).underLoadUntil ≤ UnixNano 1000 ∧
    ((IsUnderLoad 1000000000 (sampleTransport transportStateUp) 1000 127).1 = true ↔
      127 ≥ 128) :=
  ⟨by decide,
    (IsUnderLoad_iff 1000000000 (sampleTransport transportStateUp) 1000 127 (by decide)).2.2⟩

/-- C9: under-load status is sticky. Take a call at clock reading `t0` that finds the queue
at or over the threshold (`t0 + UnderLoadAfterTime` fitting an int64), then any calls `cs`,
then a call at clock reading `now` (fitting an int64) with queue depth `d`.
(1) If the calls of `cs` are made at readings not before `t0` and `now < t0 +
UnderLoadAfterTime`, the last call returns true whatever `d` is.
(2) If no call of `cs` finds the queue at or over the threshold, so that `t0` is the last
such observation, `d` is below the threshold and `t0 + UnderLoadAfterTime ≤ now`, the
last call returns false.
(3) On a new transport, after calls `cs` none of which finds the queue at or over the
threshold, a call with `d` below the threshold at a reading `now` not before the Unix
epoch returns false. -/
theorem IsUnderLoad_sticky (U : Int) (t : Transport B S R) (t0 : Int) (d0 : Nat)
    (cs : List (Int × Nat)) (now : Int) (d : Nat)
    (h0 : d0 ≥ QueueHandshakeSize / 8) (hr0 : int64Range (t0 + U)) (hnow : int64Range now) :
    ((∀ c ∈ cs, t0 ≤ c.1 ∧ int64Range (c.1 + U)) → now < t0 + U →
      (IsUnderLoad U (underLoadRun U (IsUnderLoad U t t0 d0).2 cs) now d).1 = true) ∧
    ((∀ c ∈ cs, c.2 < QueueHandshakeSize / 8) → d < QueueHandshakeSize / 8 →
      t0 + U ≤ now →
      (IsUnderLoad U (underLoadRun U (IsUnderLoad U t t0 d0).2 cs) now d).1 = false) ∧
    (∀ (E : Env B S R) (sourceSink : S) (bind : Option B) (limiter : R) (cpus : Nat),
      (∀ c ∈ cs, c.2 < QueueHandshakeSize / 8) → d < QueueHandshakeSize / 8 → 0 ≤ now →
      (IsUnderLoad U (underLoadRun U (NewTransport E sourceSink bind limiter cpus) cs)
        now d).1 = false) := by
  have hfirst : (IsUnderLoad U t t0 d0).2.underLoadUntil = t0 + U := by
    rw [IsUnderLoad_over U t t0 d0 h0]
    exact UnixNano_of_range _ hr0
  refine ⟨?_, ?_, ?_⟩
  · intro hcs hlt
    have hge := underLoadRun_ge U (IsUnderLoad U t t0 d0).2 cs t0 hcs (le_of_eq hfirst.symm)
    by_cases hd : d ≥ QueueHandshakeSize / 8
    · rw [IsUnderLoad_over U _ now d hd]
    · rw [IsUnderLoad_below U _ now d (Nat.not_le.mp hd), UnixNano_of_range _ hnow]
      simp only [decide_eq_true_eq, gt_iff_lt]
      omega
  · intro hcs hd hle
    rw [underLoadRun_below U _ cs hcs, IsUnderLoad_below U _ now d hd,
      UnixNano_of_range _ hnow, hfirst]
    simp only [decide_eq_false_iff_not, gt_iff_lt]
    omega
  · intro E sourceSink bind limiter cpus hcs hd hpos
    rw [underLoadRun_below U _ cs hcs, IsUnderLoad_below U _ now d hd,
      UnixNano_of_range _ hnow]
    simp only [NewTransport, decide_eq_false_iff_not, gt_iff_lt]
    omega

theorem IsUnderLoad_sticky_witness :
    (IsUnderLoad 1000000000
        (underLoadRun 1000000000
          (IsUnderLoad 1000000000 (sampleTransport transportStateUp) 5000000000 200).2
          [(5200000000, 3), (5400000000, 150)])
        5900000000 0).1 = true ∧
    (IsUnderLoad 1000000000
        (underLoadRun 1000000000
          (IsUnderLoad 1000000000 (sampleTransport transportStateUp) 5000000000 200).2
          [(5200000000, 3), (5400000000, 7)])
        6000000000 0).1 = false ∧
    (IsUnderLoad 1000000000
        (underLoadRun 1000000000 (NewTransport (countingEnv none none none) 0 (some 0) 0 2)
          [(5200000000, 3), (5400000000, 7)])
        6000000000 0).1 = false :=
  ⟨(IsUnderLoad_sticky 1000000000 (sampleTransport transportStateUp) 5000000000 200
      [(5200000000, 3), (5400000000, 150)] 5900000000 0 (by decide) (by decide)
      (by decide)).1 (by decide) (by decide),
    (IsUnderLoad_sticky 1000000000 (sampleTransport transportStateUp) 5000000000 200
      [(5200000000, 3), (5400000000, 7)] 6000000000 0 (by decide) (by decide)
      (by decide)).2.1 (by decide) (by decide) (by decide),
    (IsUnderLoad_sticky 1000000000 (sampleTransport transportStateUp) 5000000000 200
      [(5200000000, 3), (5400000000, 7)] 6000000000 0 (by decide) (by decide)
      (by decide)).2.2 (countingEnv none none none) 0 (some 0) 0 2 (by decide) (by decide)
      (by decide)⟩

/-! ## Batch size -/

/-- C11: for a transport with a binding whose batch size is `b` and a source/sink whose
batch size is `d`, `BatchSize` returns `max b d`: the result is at least `b`, at least
`d`, and equal to one of the two. -/
theorem BatchSize_max (E : Env B S R) (t : Transport B S R) (bind : B)
    (hb : t.bind = some bind) :
    ∃ r, BatchSize E t = some r ∧
      r = max (E.bind.BatchSize bind) (E.sourceSink.BatchSize t.sourceSink) ∧
      E.bind.BatchSize bind ≤ r ∧
      E.sourceSink.BatchSize t.sourceSink ≤ r ∧
      (r = E.bind.BatchSize bind ∨ r = E.sourceSink.BatchSize t.sourceSink) := by
  by_cases h : E.bind.BatchSize bind < E.sourceSink.BatchSize t.sourceSink
  · refine ⟨E.sourceSink.BatchSize t.sourceSink, ?_, ?_, ?_, le_refl _, Or.inr rfl⟩
    · simp [BatchSize, hb, h]
    · exact (max_eq_right (le_of_lt h)).symm
    · exact le_of_lt h
  · refine ⟨E.bind.BatchSize bind, ?_, ?_, le_refl _, ?_, Or.inl rfl⟩
    · simp [BatchSize, hb, h]
    · exact (max_eq_left (not_lt.mp h)).symm
    · exact not_lt.mp h

theorem BatchSize_max_witness :
    (sampleTransport transportStateDown).bind = some 0 ∧
    ∃ r, BatchSize (countingEnv none none none) (sampleTransport transportStateDown) = some r ∧
      r = max ((countingEnv none none none).bind.BatchSize 0)
        ((countingEnv none none none).sourceSink.BatchSize
          (sampleTransport transportStateDown).sourceSink) ∧
      (countingEnv none none none).bind.BatchSize 0 ≤ r ∧
      (countingEnv none none none).sourceSink.BatchSize
        (sampleTransport transportStateDown).sourceSink ≤ r ∧
      (r = (countingEnv none none none).bind.BatchSize 0 ∨
        r = (countingEnv none none none).sourceSink.BatchSize
          (sampleTransport transportStateDown).sourceSink) :=
  ⟨rfl, BatchSize_max (countingEnv none none none) (sampleTransport transportStateDown) 0 rfl⟩

end NoisyTransport
